import Mathlib

/-!
Shallow embedding of the derivation core of `src/app.py` (a Shiny dashboard
over a cleaned health dataset).  Datasets are lists of rows; numeric cells
that failed to parse are `Option.none` (pandas `NaN`); numeric values are
modelled as rationals.  Each definition mirrors one Python function:

* `clean_numeric` — `clean_numeric_column` (app.py lines 26-35), per cell;
* `get_region` — `get_region` (lines 49-68);
* `select_all_states` — the `select_all_states` effect (lines 489-500);
* `current_data` / `trend_data` — the `@reactive.calc` functions
  (lines 503-520 and 523-534); pandas boolean-mask filtering keeps rows in
  source order, `.dropna` is a filter, `.rank(ascending=False, method='min')`
  assigns `1 + (number of strictly greater values)`;
* `current_data_raw` — `current_data` including its input-reading boundary
  (`req`, `int(input.year())`, column lookup by indicator key), with Python
  exceptions modelled as `Except.error`;
* `data_table` — the `data_table` renderer (lines 634-676).
-/

/-- The four health indicators (the four cleaned numeric columns). -/
inductive Ind
  | obesity
  | smoking
  | physical
  | mental
deriving DecidableEq, Repr

/-- One dataset row: state, year, and the four indicator cells, each
possibly missing (`NaN` after cleaning). -/
structure Row where
  state : String
  year : ℤ
  obesity : Option ℚ
  smoking : Option ℚ
  physical : Option ℚ
  mental : Option ℚ
deriving DecidableEq, Repr

/-- Column projection: reading the indicator's column from a row. -/
def Ind.get : Ind → Row → Option ℚ
  | .obesity, r => r.obesity
  | .smoking, r => r.smoking
  | .physical, r => r.physical
  | .mental, r => r.mental

/-- The Input State: the user-controlled selection the server reads
(`input.state()`, `input.year()`, `input.primary_var()`,
`input.table_columns()`, `input.state_search()`). -/
structure Selection where
  states : List String
  year : ℤ
  indicator : Ind
  tableColumns : List String
  searchText : String

/-- Model of `get_region` (app.py lines 49-68): membership in three hard-coded lists,
with a default of `"West"` in the final `else`. -/
def get_region (state : String) : String :=
  let northeast := ["Connecticut", "Maine", "Massachusetts", "New Hampshire",
      "Rhode Island", "Vermont", "New York", "New Jersey", "Pennsylvania"]
  let midwest := ["Illinois", "Indiana", "Michigan", "Ohio", "Wisconsin",
      "Iowa", "Kansas", "Minnesota", "Missouri", "Nebraska",
      "North Dakota", "South Dakota"]
  let south := ["Delaware", "Florida", "Georgia", "Maryland", "North Carolina",
      "South Carolina", "Virginia", "West Virginia", "Alabama",
      "Kentucky", "Mississippi", "Tennessee", "Arkansas",
      "Louisiana", "Oklahoma", "Texas"]
  if state ∈ northeast then "Northeast"
  else if state ∈ midwest then "Midwest"
  else if state ∈ south then "South"
  else "West"

/-- Digit run to a natural number (helper for the numeric parser). -/
def digitsToNat (l : List Char) : ℕ :=
  l.foldl (fun n c => 10 * n + (c.toNat - 48)) 0

/-- Model of `pd.to_numeric(·, errors='coerce')` on a string that contains only
digits and dots (everything else was stripped beforehand): a valid float
literal has at most one dot and at least one digit; anything else coerces
to `NaN` (`none`). -/
def parseCleaned (l : List Char) : Option ℚ :=
  let intPart := l.takeWhile (fun c => c ≠ '.')
  let rest := l.dropWhile (fun c => c ≠ '.')
  match rest with
  | [] => if intPart = [] then none else some (digitsToNat intPart)
  | _ :: frac =>
      if frac.contains '.' then none
      else if intPart = [] ∧ frac = [] then none
      else some ((digitsToNat intPart : ℚ) + (digitsToNat frac : ℚ) / 10 ^ frac.length)

/-- Model of `clean_numeric_column` (app.py lines 26-35), applied to one cell:
replace every comma by a dot, strip every character that is not a digit or
a dot (the regex `[^0-9.]`), then coerce to a number, failures becoming
`NaN` (`none`). -/
def clean_numeric (s : String) : Option ℚ :=
  let replaced := s.data.map (fun c => if c = ',' then '.' else c)
  parseCleaned (replaced.filter (fun c => c.isDigit || c = '.'))

/-- Model of the `select_all_states` effect (app.py lines 489-500): when the selected list has
the same length as the full state list, reset to `["Alabama"]`; otherwise
select every state. -/
def select_all_states (all_states current_selected : List String) : List String :=
  if current_selected.length = all_states.length then ["Alabama"]
  else all_states

/-- A row of either derived slice after the projection to the selected
indicator column and `dropna`: `(State, year, value)`. -/
structure SRow where
  state : String
  year : ℤ
  value : ℚ
deriving DecidableEq, Repr

/-- A row of the current slice after region and rank are attached:
`(State, Year, value, Region, Rank)`. -/
structure CRow where
  state : String
  year : ℤ
  value : ℚ
  region : String
  rank : ℕ
deriving DecidableEq, Repr

/-- The boolean mask of `current_data`:
`health_data['State'].isin(input.state()) & (health_data['year'] == int(input.year()))`. -/
def currentPred (sel : Selection) (r : Row) : Bool :=
  decide (r.state ∈ sel.states) && decide (r.year = sel.year)

/-- The filtered, projected, `dropna`-ed frame inside `current_data`
(app.py lines 507-513): mask filtering keeps source order; selecting the
indicator column and dropping `NaN` keeps exactly the rows whose indicator
cell is present. -/
def current_rows (ds : List Row) (sel : Selection) : List SRow :=
  (ds.filter (currentPred sel)).filterMap
    (fun r => (sel.indicator.get r).map (fun v => ⟨r.state, r.year, v⟩))

/-- Model of `.rank(ascending=False, method='min').astype(int)` of a value against
the surviving value column: `1 +` the number of strictly greater values. -/
def rankOf (rows : List SRow) (v : ℚ) : ℕ :=
  1 + rows.countP (fun r => decide (v < r.value))

/-- Model of `current_data` (app.py lines 503-520): filter to the selected states
and year, project the selected indicator, drop missing values, attach
`Region = get_region(State)` and the descending min-method rank. -/
def current_data (ds : List Row) (sel : Selection) : List CRow :=
  let rows := current_rows ds sel
  rows.map (fun r => ⟨r.state, r.year, r.value, get_region r.state, rankOf rows r.value⟩)

/-- Model of `trend_data` (app.py lines 523-534): filter to the selected states
(all years), project the selected indicator, drop missing values.  The
boolean mask keeps the dataset's own row order. -/
def trend_data (ds : List Row) (sel : Selection) : List SRow :=
  (ds.filter (fun r => decide (r.state ∈ sel.states))).filterMap
    (fun r => (sel.indicator.get r).map (fun v => ⟨r.state, r.year, v⟩))

/-- Model of `int(...)` applied to the year widget's value: `int(None)` raises
`TypeError`, `int(s)` on a string that is not a decimal numeral raises
`ValueError`. -/
def pyInt (s : Option String) : Except String ℤ :=
  match s with
  | none => .error "TypeError"
  | some str =>
      if str.data ≠ [] ∧ str.data.all (fun c => c.isDigit) then
        .ok (digitsToNat str.data : ℤ)
      else .error "ValueError"

/-- The indicator column keys of the dataframe: looking a key up that is
not one of the four columns raises `KeyError`. -/
def indOfKey (k : String) : Option Ind :=
  if k = "Adult.obesity..in..." then some .obesity
  else if k = "Adult.smoking..in..." then some .smoking
  else if k = "Physical.unhealthy.days" then some .physical
  else if k = "Mental.unhealthy.days" then some .mental
  else none

/-- Model of `current_data` including its input-reading boundary (app.py lines
503-510).  `req(input.state, input.year, input.primary_var)` is passed the
accessor objects themselves (not their values); they are always truthy, so
`req` never interrupts and is a no-op here.  The computation then fails
anyway on a missing input: `int(input.year())` raises on `None` or a
non-numeral, and indexing the frame with an unknown indicator key raises
`KeyError`.  Python exceptions are modelled as `Except.error`. -/
def current_data_raw (ds : List Row) (states : List String)
    (yearInput indKey : Option String) : Except String (List CRow) :=
  match pyInt yearInput with
  | .error e => .error e
  | .ok y =>
      match indKey.bind indOfKey with
      | none => .error "KeyError"
      | some ind =>
          .ok (current_data ds
            { states := states, year := y, indicator := ind,
              tableColumns := [], searchText := "" })

/-- A cell of the rendered data table. -/
inductive Cell
  | str : String → Cell
  | intc : ℤ → Cell
  | num : ℚ → Cell
deriving DecidableEq, Repr

/-- Round to the nearest integer, halves to the even neighbour (the
IEEE-754 rounding pandas `Series.round` uses). -/
def roundHalfEven (q : ℚ) : ℤ :=
  if q - ⌊q⌋ = 1 / 2 then (if ⌊q⌋ % 2 = 0 then ⌊q⌋ else ⌊q⌋ + 1)
  else round q

/-- Model of `Series.round(2)`: round to two decimal places, halves to even. -/
def round2 (q : ℚ) : ℚ :=
  (roundHalfEven (q * 100) : ℚ) / 100

/-- The table's column universe (`col_mapping`'s keys, app.py lines 644-650). -/
def validCols : List String := ["State", "Year", "Value", "Region", "Rank"]

/-- One display cell of the table: the chosen columns drawn from a current
slice row, with `value` renamed to `Value` and rounded to 2 decimals at
this presentation boundary (app.py lines 652-674); an unknown column name
yields nothing. -/
def cellOfDisplay (r : CRow) (c : String) : Option Cell :=
  if c = "State" then some (.str r.state)
  else if c = "Year" then some (.intc r.year)
  else if c = "Value" then some (.num (round2 r.value))
  else if c = "Region" then some (.str r.region)
  else if c = "Rank" then some (.intc (r.rank : ℤ))
  else none

/-- Model of `input.table_columns() if input.table_columns() else ["State","Year","Value"]`
followed by `[col for col in selected_cols if col in col_mapping]`. -/
def effectiveCols (selCols : List String) : List String :=
  (if selCols.isEmpty then ["State", "Year", "Value"] else selCols).filter
    (fun c => validCols.contains c)

/-- Projection of one slice row to the chosen display columns, in the
user's column order. -/
def projRow (cols : List String) (r : CRow) : List (String × Cell) :=
  cols.filterMap (fun c => (cellOfDisplay r c).map (fun x => (c, x)))

/-- The sort key `sort_values("Value", ...)` reads: the row's `Value`
cell (rows sorted by `data_table` always carry one). -/
def valueKey (t : List (String × Cell)) : ℚ :=
  match t.lookup "Value" with
  | some (Cell.num q) => q
  | _ => 0

/-- Row order of `sort_values("Value", ascending=False)`: descending on
the `Value` cell. -/
def tableGE (a b : List (String × Cell)) : Prop :=
  valueKey b ≤ valueKey a

instance : DecidableRel tableGE :=
  fun a b => inferInstanceAs (Decidable (valueKey b ≤ valueKey a))

instance : IsTotal (List (String × Cell)) tableGE :=
  ⟨fun a b => le_total (valueKey b) (valueKey a)⟩

instance : IsTrans (List (String × Cell)) tableGE :=
  ⟨fun _ _ _ h1 h2 => le_trans h2 h1⟩

/-- Model of `data_table` (app.py lines 634-676): project `current_data()` to the
chosen columns (renamed, `Value` rounded to 2 decimals), then
`sort_values("Value", ascending=False)` when `Value` is among the chosen
columns, else keep the slice's row order.  pandas leaves the relative
order of equal keys unspecified (its default sort is not stable); the
sort is modelled by insertion sort, one admissible implementation. -/
def data_table (rows : List CRow) (selCols : List String) :
    List (List (String × Cell)) :=
  let cols := effectiveCols selCols
  let disp := rows.map (projRow cols)
  if cols.contains "Value" then List.insertionSort tableGE disp else disp

/-! ### Concrete data used by the scenario conjuncts and witnesses -/

/-- The spec's end-to-end scenario dataset: states A, B, C with obesity
values 20, 35, 35 for year 2020. -/
def dsABC : List Row :=
  [⟨"A", 2020, some 20, none, none, none⟩,
   ⟨"B", 2020, some 35, none, none, none⟩,
   ⟨"C", 2020, some 35, none, none, none⟩]

/-- Selecting all three scenario states, year 2020, indicator obesity. -/
def selABC : Selection :=
  ⟨["A", "B", "C"], 2020, .obesity, [], ""⟩

/-- The scenario row for state A: value 20 ranks third of three. -/
def rowA : CRow := ⟨"A", 2020, 20, "West", 3⟩

/-- One state, two years, distinct obesity values: changing the year alone
changes the current slice. -/
def dsYear : List Row :=
  [⟨"A", 2019, some 1, none, none, none⟩,
   ⟨"A", 2020, some 2, none, none, none⟩]

/-- A selection of state A and obesity in which only the year varies. -/
def selYear (y : ℤ) : Selection := ⟨["A"], y, .obesity, [], ""⟩

/-- A dataset whose source order interleaves states B and A. -/
def dsBA : List Row :=
  [⟨"B", 2020, some 1, none, none, none⟩,
   ⟨"A", 2019, some 1, none, none, none⟩,
   ⟨"A", 2020, some 2, none, none, none⟩]

/-- States selected in the insertion order A then B. -/
def selBA : Selection := ⟨["A", "B"], 2020, .obesity, [], ""⟩

/-- A dataset with a duplicated (state, year) pair carrying two different
obesity values. -/
def dsDup : List Row :=
  [⟨"A", 2020, some 10, none, none, none⟩,
   ⟨"A", 2020, some 20, none, none, none⟩]

/-- The selection hitting the duplicated pair. -/
def selDup : Selection := ⟨["A"], 2020, .obesity, [], ""⟩

/-- Two current-slice rows whose values are out of descending order. -/
def tRows : List CRow :=
  [⟨"A", 2020, 1, "West", 2⟩, ⟨"B", 2020, 2, "West", 1⟩]

/-- The pair order claim C3 asserts of the trend slice: an earlier row
belongs to a state inserted earlier into the selected-states list, or to
the same state with a year no greater. -/
def trendOrderRel (sel : Selection) (a b : SRow) : Prop :=
  sel.states.indexOf a.state < sel.states.indexOf b.state ∨
  (a.state = b.state ∧ a.year ≤ b.year)

instance (sel : Selection) : DecidableRel (trendOrderRel sel) := fun _ _ =>
  inferInstanceAs (Decidable (_ ∨ _))

/-- The ordering of the trend slice that claim C3 asserts: grouped by
state in the insertion order of the selected states, ascending year within
each state's group. -/
def claimedTrendOrder (sel : Selection) (out : List SRow) : Prop :=
  out.Pairwise (trendOrderRel sel)

instance (sel : Selection) (out : List SRow) :
    Decidable (claimedTrendOrder sel out) :=
  inferInstanceAs (Decidable (out.Pairwise (trendOrderRel sel)))

/-! ### Helper lemmas -/

lemma countP_lt_length_of_mem {α : Type} {p : α → Bool} {l : List α} {x : α}
    (hx : x ∈ l) (hpx : p x = false) : l.countP p < l.length := by
  induction l with
  | nil => cases hx
  | cons a t ih =>
    rw [List.countP_cons, List.length_cons]
    rcases List.mem_cons.mp hx with h | h
    · subst h
      rw [hpx]
      simpa using Nat.lt_succ_of_le (List.countP_le_length p)
    · have := ih h
      split <;> omega

lemma countP_lt_countP_of_mem {α : Type} {p q : α → Bool} {l : List α} {x : α}
    (hx : x ∈ l) (hpq : ∀ a ∈ l, p a = true → q a = true)
    (hq : q x = true) (hp : p x = false) : l.countP p < l.countP q := by
  induction l with
  | nil => cases hx
  | cons a t ih =>
    rw [List.countP_cons, List.countP_cons]
    rcases List.mem_cons.mp hx with h | h
    · subst h
      have hle : t.countP p ≤ t.countP q :=
        List.countP_mono_left (fun a ha hpa => hpq a (List.mem_cons_of_mem _ ha) hpa)
      simp only [hp, hq]
      simp only [Bool.false_eq_true, if_false, if_true]
      omega
    · have hrec := ih h (fun a ha hpa => hpq a (List.mem_cons_of_mem _ ha) hpa)
      cases hpa : p a
      · have h1 : (if false = true then 1 else 0) = 0 := by simp
        have h2 : (if q a = true then 1 else 0) ≤ 1 := by split <;> omega
        omega
      · rw [hpq a (List.mem_cons_self a t) hpa]
        omega

lemma length_filterMap_filter {α β : Type} (p : α → Bool) (f : α → Option β) :
    ∀ l : List α, ((l.filter p).filterMap f).length =
      l.countP (fun x => p x && (f x).isSome)
  | [] => rfl
  | a :: t => by
    cases hp : p a <;> cases hf : f a <;>
      simp [List.filter_cons, List.filterMap_cons, List.countP_cons, hp, hf,
        length_filterMap_filter p f t]

lemma current_rows_eq_nil (ds : List Row) (sel : Selection)
    (h : sel.states = []) : current_rows ds sel = [] := by
  unfold current_rows
  have hf : ds.filter (currentPred sel) = [] := by
    rw [List.filter_eq_nil_iff]
    intro r _
    simp [currentPred, h]
  rw [hf]
  rfl

/-! ### Claim theorems -/

/-- C5: cleaning a numeric field never raises: `clean_numeric_column`
maps every input string either to a float or to the explicit no-value
marker (`NaN`, here `none`); cleaning `"30,5%"` yields `30.5` and
cleaning `"N/A"` yields no value. -/
theorem clean_numeric_column_spec :
    clean_numeric "30,5%" = some (61 / 2 : ℚ) ∧
    clean_numeric "N/A" = none ∧
    ∀ s : String, clean_numeric s = none ∨ ∃ q : ℚ, clean_numeric s = some q := by
  refine ⟨?_, by decide, fun s => ?_⟩
  · have h : clean_numeric "30,5%" = some ((30 : ℚ) + (5 : ℚ) / 10 ^ 1) := by rfl
    rw [h]
    norm_num
  · cases h : clean_numeric s
    · exact Or.inl rfl
    · exact Or.inr ⟨_, rfl⟩

/-- C6: `get_region` is a total deterministic function returning exactly
one of the four region names; `get_region "Texas" = "South"` and the
unlisted `"Montana"` defaults to `"West"`. -/
theorem get_region_total_spec :
    (∀ s : String, get_region s = "Northeast" ∨ get_region s = "Midwest" ∨
      get_region s = "South" ∨ get_region s = "West") ∧
    get_region "Texas" = "South" ∧ get_region "Montana" = "West" := by
  refine ⟨fun s => ?_, by decide, by decide⟩
  simp only [get_region]
  split_ifs <;> simp

/-- C7: for every Selection with an empty selected-states list, both
`current_data` and `trend_data` return the empty slice normally — also
through the exception-aware entry point, which returns `.ok []` rather
than an error. -/
theorem empty_states_empty_slices (ds : List Row) (sel : Selection)
    (h : sel.states = []) :
    current_data ds sel = [] ∧ trend_data ds sel = [] ∧
    current_data_raw ds [] (some "2020") (some "Adult.obesity..in...") = .ok [] := by
  refine ⟨?_, ?_, ?_⟩
  · unfold current_data
    rw [current_rows_eq_nil ds sel h]
    rfl
  · unfold trend_data
    have hf : ds.filter (fun r => decide (r.state ∈ sel.states)) = [] := by
      rw [List.filter_eq_nil_iff]
      intro r _
      simp [h]
    rw [hf]
    rfl
  · have hempty : current_data ds ⟨[], 2020, .obesity, [], ""⟩ = [] := by
      unfold current_data
      rw [current_rows_eq_nil ds _ rfl]
      rfl
    have hraw : current_data_raw ds [] (some "2020") (some "Adult.obesity..in...") =
        .ok (current_data ds ⟨[], (2020 : ℤ), .obesity, [], ""⟩) := by rfl
    rw [hraw, hempty]

/-- Witness for C7 at a concrete empty selection. -/
theorem empty_states_empty_slices_witness :
    current_data dsABC ⟨[], 2020, .obesity, [], ""⟩ = [] ∧
    trend_data dsABC ⟨[], 2020, .obesity, [], ""⟩ = [] ∧
    current_data_raw dsABC [] (some "2020") (some "Adult.obesity..in...") = .ok [] :=
  empty_states_empty_slices dsABC ⟨[], 2020, .obesity, [], ""⟩ rfl

/-- C8: `select_all_states` sets the selection to the full state universe
whenever the current selection is not yet the full universe, and resets it
to the default `["Alabama"]` when it is — so toggling from any not-all
state gives the full set and toggling again gives the default, not the
prior selection.  The code compares lengths, which under the widget's
invariants (the selection is a duplicate-free sublist of the universe)
coincides with set equality. -/
theorem select_all_states_spec (univ cur : List String)
    (hnc : cur.Nodup) (hnu : univ.Nodup)
    (hsub : ∀ s ∈ cur, s ∈ univ) (hne : ∃ s ∈ univ, s ∉ cur) :
    select_all_states univ cur = univ ∧
    select_all_states univ univ = ["Alabama"] ∧
    select_all_states univ (select_all_states univ cur) = ["Alabama"] := by
  have hlt : cur.length < univ.length := by
    have hsubF : cur.toFinset ⊆ univ.toFinset := by
      intro a ha
      rw [List.mem_toFinset] at ha ⊢
      exact hsub a ha
    have hcards : cur.toFinset.card ≤ univ.toFinset.card := Finset.card_le_card hsubF
    rw [List.toFinset_card_of_nodup hnc, List.toFinset_card_of_nodup hnu] at hcards
    rcases lt_or_eq_of_le hcards with hlt | heq
    · exact hlt
    · exfalso
      obtain ⟨s, hsu, hsc⟩ := hne
      have hFeq : cur.toFinset = univ.toFinset := by
        apply Finset.eq_of_subset_of_card_le hsubF
        rw [List.toFinset_card_of_nodup hnc, List.toFinset_card_of_nodup hnu]
        omega
      apply hsc
      rw [← List.mem_toFinset, hFeq, List.mem_toFinset]
      exact hsu
  have h1 : select_all_states univ cur = univ := by
    unfold select_all_states
    rw [if_neg (by omega)]
  have h2 : select_all_states univ univ = ["Alabama"] := by
    unfold select_all_states
    rw [if_pos rfl]
  exact ⟨h1, h2, by rw [h1]; exact h2⟩

/-- Witness for C8 at a concrete two-state universe. -/
theorem select_all_states_spec_witness :
    select_all_states ["Alabama", "Texas"] ["Texas"] = ["Alabama", "Texas"] ∧
    select_all_states ["Alabama", "Texas"] ["Alabama", "Texas"] = ["Alabama"] ∧
    select_all_states ["Alabama", "Texas"]
      (select_all_states ["Alabama", "Texas"] ["Texas"]) = ["Alabama"] :=
  select_all_states_spec ["Alabama", "Texas"] ["Texas"]
    (by decide) (by decide) (by decide) (by decide)

/-- C1: `trend_data` is a function of only the selected states and the
selected indicator — two Selections agreeing on those but differing in
year (or any other field) give the same trend slice — while `current_data`
can differ between two such Selections, as the concrete `dsYear` instance
shows. -/
theorem trend_data_year_independent (ds : List Row) (s1 s2 : Selection)
    (hs : s1.states = s2.states) (hi : s1.indicator = s2.indicator) :
    trend_data ds s1 = trend_data ds s2 ∧
    (selYear 2019).states = (selYear 2020).states ∧
    (selYear 2019).indicator = (selYear 2020).indicator ∧
    current_data dsYear (selYear 2019) ≠ current_data dsYear (selYear 2020) := by
  refine ⟨?_, rfl, rfl, by decide⟩
  unfold trend_data
  rw [hs, hi]

/-- Witness for C1: the two `selYear` Selections agree on states and
indicator and differ only in year. -/
theorem trend_data_year_independent_witness :
    trend_data dsYear (selYear 2019) = trend_data dsYear (selYear 2020) ∧
    (selYear 2019).states = (selYear 2020).states ∧
    (selYear 2019).indicator = (selYear 2020).indicator ∧
    current_data dsYear (selYear 2019) ≠ current_data dsYear (selYear 2020) :=
  trend_data_year_independent dsYear (selYear 2019) (selYear 2020) rfl rfl

/-- C2: every row of the current slice has a rank between 1 and the
number of surviving rows, equal values share a rank, and a strictly
greater value gets a strictly smaller rank (descending competition
ranking); on the scenario dataset {A: 20, B: 35, C: 35} the ranks are
A ↦ 3, B ↦ 1, C ↦ 1. -/
theorem current_data_rank_spec :
    (∀ (ds : List Row) (sel : Selection) (r : CRow), r ∈ current_data ds sel →
      (1 ≤ r.rank ∧ r.rank ≤ (current_data ds sel).length) ∧
      ∀ r2 ∈ current_data ds sel,
        (r.value = r2.value → r.rank = r2.rank) ∧
        (r2.value < r.value → r.rank < r2.rank)) ∧
    (current_data dsABC selABC).map (fun r => (r.state, r.rank)) =
      [("A", 3), ("B", 1), ("C", 1)] := by
  constructor
  · intro ds sel r hr
    simp only [current_data, List.mem_map] at hr
    obtain ⟨v, hv, hvr⟩ := hr
    have hlen : (current_data ds sel).length = (current_rows ds sel).length := by
      simp [current_data]
    constructor
    · constructor
      · rw [← hvr]
        exact Nat.le_add_right 1 _
      · rw [← hvr, hlen]
        show rankOf (current_rows ds sel) v.value ≤ (current_rows ds sel).length
        unfold rankOf
        have := countP_lt_length_of_mem
          (p := fun r' : SRow => decide (v.value < r'.value)) hv (by simp)
        omega
    · intro r2 hr2
      simp only [current_data, List.mem_map] at hr2
      obtain ⟨w, hw, hwr⟩ := hr2
      constructor
      · intro hval
        rw [← hvr, ← hwr] at hval ⊢
        show rankOf (current_rows ds sel) v.value = rankOf (current_rows ds sel) w.value
        have : v.value = w.value := hval
        rw [this]
      · intro hlt
        rw [← hvr, ← hwr] at hlt ⊢
        show rankOf (current_rows ds sel) v.value < rankOf (current_rows ds sel) w.value
        have hlt' : w.value < v.value := hlt
        unfold rankOf
        have hcount : (current_rows ds sel).countP
              (fun r' => decide (v.value < r'.value)) <
            (current_rows ds sel).countP
              (fun r' => decide (w.value < r'.value)) := by
          apply countP_lt_countP_of_mem hv
          · intro a _ hpa
            simp only [decide_eq_true_eq] at hpa ⊢
            exact lt_trans hlt' hpa
          · simpa using hlt'
          · simp
        omega
  · decide

/-- Witness for C2: the scenario row for state A is in the slice and its
rank 3 lies in `[1, 3]`. -/
theorem current_data_rank_spec_witness :
    1 ≤ rowA.rank ∧ rowA.rank ≤ (current_data dsABC selABC).length :=
  (current_data_rank_spec.1 dsABC selABC rowA (by decide)).1

/-- C3 counterexample: on the dataset `dsBA` (source order B, A, A) with
states selected in insertion order A then B, `trend_data` returns the B
row first — the output is not grouped by state in the insertion order of
the selected states. -/
theorem trend_data_order_counterexample :
    ¬ claimedTrendOrder selBA (trend_data dsBA selBA) := by decide

/-- C3 amended: `trend_data` keeps its rows in the dataset's own (stable
source) order — the slice is a subsequence of the full-dataset projection
to the selected indicator — rather than regrouping by the insertion order
of the selected states. -/
theorem trend_data_source_order (ds : List Row) (sel : Selection) :
    (trend_data ds sel).Sublist
      (ds.filterMap (fun r =>
        (sel.indicator.get r).map (fun v => (⟨r.state, r.year, v⟩ : SRow)))) :=
  List.Sublist.filterMap _ (List.filter_sublist ds)

/-- C4 counterexample: on a dataset whose (state, year) pair ("A", 2020)
occurs twice with values 10 and 20, `current_data` returns both rows — it
does not keep only the first matching row per pair. -/
theorem current_data_duplicates_counterexample :
    ((current_data dsDup selDup).map (fun r => (r.state, r.year, r.value)) =
      [("A", 2020, (10 : ℚ)), ("A", 2020, (20 : ℚ))]) ∧
    ¬ ((current_data dsDup selDup).map (fun r => (r.state, r.year))).Nodup := by
  exact ⟨by decide, by decide⟩

/-- C4 amended: the derived slices keep every matching row of the dataset,
duplicates included, in stable source order: the slice lengths equal the
number of dataset rows passing the filter with a present indicator value
(no per-(state, year) deduplication happens). -/
theorem slices_keep_all_matching_rows (ds : List Row) (sel : Selection) :
    (current_data ds sel).length =
      ds.countP (fun r => currentPred sel r && (sel.indicator.get r).isSome) ∧
    (trend_data ds sel).length =
      ds.countP (fun r => decide (r.state ∈ sel.states) && (sel.indicator.get r).isSome) := by
  constructor
  · have h1 : (current_data ds sel).length = (current_rows ds sel).length := by
      simp [current_data]
    rw [h1]
    unfold current_rows
    rw [length_filterMap_filter]
    apply List.countP_congr
    intro r _
    simp [Option.isSome_map]
  · unfold trend_data
    rw [length_filterMap_filter]
    apply List.countP_congr
    intro r _
    simp [Option.isSome_map]

/-- C9: with the selected year or the selected indicator missing at read
time, `current_data` does not produce a slice: the read raises
(`int(None)`/`int("")` or the unknown-column `KeyError`), surfacing a
configuration error to the caller instead of silently defaulting. -/
theorem current_data_raw_missing_inputs (ds : List Row) (states : List String)
    (yearInput indKey : Option String)
    (h : yearInput = none ∨ yearInput = some "" ∨ indKey = none ∨ indKey = some "") :
    ∃ e, current_data_raw ds states yearInput indKey = .error e := by
  rcases h with h | h | h | h
  · subst h
    exact ⟨"TypeError", rfl⟩
  · subst h
    exact ⟨"ValueError", rfl⟩
  · subst h
    cases hy : pyInt yearInput with
    | error e => exact ⟨e, by simp [current_data_raw, hy]⟩
    | ok y => exact ⟨"KeyError", by simp [current_data_raw, hy]⟩
  · subst h
    cases hy : pyInt yearInput with
    | error e => exact ⟨e, by simp [current_data_raw, hy]⟩
    | ok y =>
        refine ⟨"KeyError", ?_⟩
        have hk : (Option.bind (some "") indOfKey) = (none : Option Ind) := by decide
        simp [current_data_raw, hy, hk]

/-- Witness for C9: both inputs missing on a concrete dataset. -/
theorem current_data_raw_missing_inputs_witness :
    ∃ e, current_data_raw dsABC ["A"] none none = .error e :=
  current_data_raw_missing_inputs dsABC ["A"] none none (Or.inl rfl)

/-- C10: whenever `"Value"` is among the chosen table columns, the table's
rows are a permutation of the projected slice rows sorted descending on
the 2-decimal-rounded `Value` cell; otherwise the table keeps the slice's
row order unchanged. -/
theorem data_table_order_spec (rows : List CRow) (selCols : List String) :
    ((effectiveCols selCols).contains "Value" = true →
      List.Sorted tableGE (data_table rows selCols) ∧
      (data_table rows selCols).Perm
        (rows.map (projRow (effectiveCols selCols)))) ∧
    ((effectiveCols selCols).contains "Value" = false →
      data_table rows selCols = rows.map (projRow (effectiveCols selCols))) := by
  constructor
  · intro h
    unfold data_table
    simp only [h, if_true]
    exact ⟨List.sorted_insertionSort _ _, List.perm_insertionSort _ _⟩
  · intro h
    unfold data_table
    simp only [h, Bool.false_eq_true, if_false]

/-- Witness for C10 on two out-of-order rows with the `Value` column
selected. -/
theorem data_table_order_spec_witness :
    List.Sorted tableGE (data_table tRows ["State", "Value"]) ∧
    (data_table tRows ["State", "Value"]).Perm
      (tRows.map (projRow (effectiveCols ["State", "Value"]))) :=
  (data_table_order_spec tRows ["State", "Value"]).1 (by decide)
